import Mathlib

/-!
# Verification of the workout/health-metrics aggregation repository

Shallow embedding of the two pipelines:

* `workoutCalculator` (`src/workoutReader.js`): reads CSV rows and sums the
  `duration` fields under a per-row classification policy.
* `healthMetricsCounter` (`src/unnamed/part_001`, `healthReader.js`): reads a
  JSON document and reports the length of its `metrics` value.

Modelling conventions:

* CSV rows are association lists from column name to string value, as produced
  by `csv-parser` (all values are strings; field names are assumed distinct,
  so first-match lookup agrees with JS property access).
* JavaScript numbers are modelled as exact rationals (`ℚ`).  The inputs to the
  arithmetic here come from `parseFloat` on decimal strings and from JSON
  documents, neither of which produces `NaN`/`Infinity` on the verified code
  paths; double rounding is abstracted away.
* The file system is an explicit parameter mapping a path to the outcome of
  the read-and-decode step (`fs.createReadStream`/`csv-parser`, resp.
  `fs.readFile`/`JSON.parse`), which in the source is an external collaborator.
* `console.log` diagnostics are modelled as an emitted list: structured values
  for the workout pipeline (the messages interpolate a row index and a value),
  literal message strings for the health pipeline (its messages are constant).
-/

namespace WorkoutApp

/-! ## Rows and the tolerant numeric parse -/

/-- A decoded CSV row: a mapping from column name to string value
(`csv-parser` yields plain objects whose values are strings). -/
def Row := List (String × String)

/-- JS property access `workout.duration`: `none` models `undefined`
(the column is absent from the row/schema). -/
def durationValue (w : Row) : Option String :=
  w.lookup "duration"

/-- Value of a decimal-digit character. -/
def digitVal (c : Char) : Nat := c.toNat - '0'.toNat

/-- Split a character list into its longest prefix of decimal digits and the
remainder (own recursion rather than `List.span`, for easy unfolding). -/
def takeDigits : List Char → List Char × List Char
  | [] => ([], [])
  | c :: rest =>
    if c.isDigit then
      let (ds, r) := takeDigits rest
      (c :: ds, r)
    else ([], c :: rest)

/-- Numeric value of a digit string, most significant digit first. -/
def digitsToNat (ds : List Char) : Nat :=
  ds.foldl (fun acc c => 10 * acc + digitVal c) 0

/-- Parse an optional exponent part (`e`/`E`, optional sign, digits).  As in
JS `parseFloat`, the `e` is consumed only when digits follow; otherwise the
input is left untouched and the exponent is 0. -/
def parseExp : List Char → Int × List Char
  | [] => (0, [])
  | c :: rest =>
    if c = 'e' ∨ c = 'E' then
      match rest with
      | '+' :: r2 =>
        let (ds, r3) := takeDigits r2
        if ds = [] then (0, c :: rest) else ((digitsToNat ds : Int), r3)
      | '-' :: r2 =>
        let (ds, r3) := takeDigits r2
        if ds = [] then (0, c :: rest) else (-(digitsToNat ds : Int), r3)
      | r2 =>
        let (ds, r3) := takeDigits r2
        if ds = [] then (0, c :: rest) else ((digitsToNat ds : Int), r3)
    else (0, c :: rest)

/-- Parse an unsigned decimal literal at the head of the input:
`digits ('.' digits?)? exp?` or `'.' digits exp?`; fails when there is no
digit before the exponent.  Returns the value and the unconsumed suffix.
(`Infinity`, accepted by JS `parseFloat`, is not representable in `ℚ` and is
outside every verified code path, so it is not modelled.) -/
def parseUnsigned (cs : List Char) : Option (ℚ × List Char) :=
  let (intDs, rest1) := takeDigits cs
  match rest1 with
  | '.' :: rest2 =>
    let (fracDs, rest3) := takeDigits rest2
    if intDs = [] ∧ fracDs = [] then none
    else
      let (e, rest4) := parseExp rest3
      some (((digitsToNat intDs : ℚ) + (digitsToNat fracDs : ℚ) / (10 : ℚ) ^ fracDs.length)
              * (10 : ℚ) ^ e, rest4)
  | _ =>
    if intDs = [] then none
    else
      let (e, rest4) := parseExp rest1
      some ((digitsToNat intDs : ℚ) * (10 : ℚ) ^ e, rest4)

/-- Parse a signed decimal literal at the head of the input (at most one
leading `+`/`-`). -/
def parseSigned (cs : List Char) : Option (ℚ × List Char) :=
  match cs with
  | '+' :: rest => parseUnsigned rest
  | '-' :: rest => (parseUnsigned rest).map (fun p => (-p.1, p.2))
  | _ => parseUnsigned cs

/-- JS `parseFloat`: skip leading whitespace, then read the longest valid
numeric prefix; `none` models `NaN` (no valid prefix at all). -/
def parseFloat (s : String) : Option ℚ :=
  (parseSigned (s.data.dropWhile Char.isWhitespace)).map Prod.fst

/-! ## The workout aggregation loop (`workoutCalculator`, `src/workoutReader.js`) -/

/-- The result object `{ totalWorkouts, totalMinutes }`. -/
structure AggregateResult where
  totalWorkouts : Nat
  totalMinutes : ℚ
deriving DecidableEq, Repr

/-- One `console.log` diagnostic from the row loop; each constructor carries
exactly the data interpolated into the corresponding message string:
* `missingDuration i` — "Warning: missing duration at row i, treating as 0"
* `invalidDuration i raw` — "Warning: invalid duration at row i (raw), treating as 0"
* `negativeDuration i v` — "Warning: negative duration at row i (v)" -/
inductive RowDiag where
  | missingDuration (rowIndex : Nat)
  | invalidDuration (rowIndex : Nat) (raw : String)
  | negativeDuration (rowIndex : Nat) (value : ℚ)
deriving DecidableEq, Repr

/-- The `for` loop of `workoutCalculator` (`src/workoutReader.js`, lines
36–60), with the running `totalMinutes` and the emitted diagnostics made
explicit.  `i` is the index of the current row.  Branches, in source order:
* `!workout || !workout.duration` — the row is never `null` in a decoded
  array, so the first disjunct is only the JS truthiness test on the string:
  absent (`undefined`) or empty `duration` → missing, `continue`;
* `parsed == null || isNaN(parsed)` — `parseFloat` never returns `null`, so
  this is the `NaN` test → invalid, `continue`;
* `parsed < 0` — logs the negative-duration warning but does NOT `continue`:
  control falls through to `totalMinutes += parsed`, so the negative value is
  added to the sum;
* otherwise `totalMinutes += parsed`. -/
def workoutLoop : List Row → Nat → ℚ → List RowDiag → ℚ × List RowDiag
  | [], _, totalMinutes, diags => (totalMinutes, diags)
  | w :: rest, i, totalMinutes, diags =>
    match durationValue w with
    | none => workoutLoop rest (i + 1) totalMinutes (diags ++ [.missingDuration i])
    | some s =>
      if s = "" then
        workoutLoop rest (i + 1) totalMinutes (diags ++ [.missingDuration i])
      else
        match parseFloat s with
        | none => workoutLoop rest (i + 1) totalMinutes (diags ++ [.invalidDuration i s])
        | some v =>
          if v < 0 then
            workoutLoop rest (i + 1) (totalMinutes + v) (diags ++ [.negativeDuration i v])
          else
            workoutLoop rest (i + 1) (totalMinutes + v) diags

/-- Function `workoutCalculator` on an already-decoded row array (lines 33–63):
`totalWorkouts` is set to `workoutData.length` before the loop, the loop
accumulates `totalMinutes` and the diagnostics.  (The defensive
`Array.isArray` check at line 28 is always satisfied: `readCSVData` resolves
with an array; our typed rows make it a tautology.) -/
def workoutCalculatorRows (rows : List Row) : AggregateResult × List RowDiag :=
  let r := workoutLoop rows 0 0 []
  (⟨rows.length, r.1⟩, r.2)

/-- Outcome of `readCSVData`: the promise resolves with the decoded rows, or
rejects with `ENOENT` (missing file) or some other stream/parser error. -/
inductive CSVRead where
  | ok (rows : List Row)
  | enoent
  | streamErr (msg : String)

/-- A pipeline-level diagnostic of `workoutCalculator`:
* `fileNotFound` — `File not found - check the file path` (the `ENOENT`
  branch of the `catch`);
* `processingError msg` — `❌ Error processing CSV file: msg` (both remaining
  `catch` branches print this same message);
* `row d` — a diagnostic logged from inside the row loop. -/
inductive WorkoutDiag where
  | fileNotFound
  | processingError (msg : String)
  | row (d : RowDiag)
deriving DecidableEq, Repr

/-- Function `workoutCalculator` (lines 23–75): the file system is an explicit map
from path to the outcome of `readCSVData`.  On success it returns the
aggregate result; every `catch` branch logs a message and returns `null`
(modelled as `none`). -/
def workoutCalculator (fs : String → CSVRead) (filepath : String) :
    Option AggregateResult × List WorkoutDiag :=
  match fs filepath with
  | .ok rows =>
    let r := workoutCalculatorRows rows
    (some r.1, r.2.map .row)
  | .enoent => (none, [.fileNotFound])
  | .streamErr msg => (none, [.processingError msg])

/-! ## The health-metrics pipeline (`healthMetricsCounter`, `healthReader.js`) -/

/-- A JavaScript value as seen by `healthMetricsCounter`: the result of
`JSON.parse` (which yields `null`, booleans, numbers, strings, arrays and
plain objects), plus the JS undefined value, the result of accessing an
absent property.  Numbers are exact rationals: JSON has no `NaN`/`Infinity`,
and the pipeline does no arithmetic on them. -/
inductive JSValue where
  | null
  | undefined
  | bool (b : Bool)
  | num (x : ℚ)
  | str (s : String)
  | arr (elems : List JSValue)
  | obj (fields : List (String × JSValue))

/-- JS truthiness (`!v` is the negation of this): `null`, `undefined`,
`false`, `0` and `""` are falsy; every array and object is truthy. -/
def jsTruthy : JSValue → Bool
  | .null => false
  | .undefined => false
  | .bool b => b
  | .num x => if x = 0 then false else true
  | .str s => if s = "" then false else true
  | .arr _ => true
  | .obj _ => true

/-- JS `Array.isArray`. -/
def isArray : JSValue → Bool
  | .arr _ => true
  | _ => false

/-- JS test `typeof v === "undefined"` (whether `v` is the undefined value). -/
def typeofIsUndefined : JSValue → Bool
  | .undefined => true
  | _ => false

/-- JS property access `v[key]`: object fields by (first-match) lookup,
`length` on arrays and strings, `undefined` everywhere else.  (In JS, access
on `null`/`undefined` throws; `healthMetricsCounter` only accesses properties
of values already checked truthy, where this total model coincides with JS.) -/
def getField : JSValue → String → JSValue
  | .obj fields, key => (fields.lookup key).getD .undefined
  | .arr elems, key => if key = "length" then .num elems.length else .undefined
  | .str s, key => if key = "length" then .num s.length else .undefined
  | _, _ => .undefined

/-- The body of `healthMetricsCounter` after a successful read and
`JSON.parse` (`healthReader.js`, lines 62–75), in source order:
* `!obj || !obj.metrics` → log `No metrics found in the file`, return `0`;
* `!Array.isArray(obj.metrics) && typeof obj.metrics.length === 'undefined'`
  → log `Metrics is not an array or does not have a length property`,
  return `null` (modelled `none`);
* otherwise return `obj.metrics.length`. -/
def healthMetricsBody (obj : JSValue) : Option JSValue × List String :=
  if jsTruthy obj = false ∨ jsTruthy (getField obj "metrics") = false then
    (some (.num 0), ["No metrics found in the file"])
  else if isArray (getField obj "metrics") = false
      ∧ typeofIsUndefined (getField (getField obj "metrics") "length") = true then
    (none, ["Metrics is not an array or does not have a length property"])
  else
    (some (getField (getField obj "metrics") "length"), [])

/-- Outcome of `fs.readFile` + `JSON.parse`: a parsed document, `ENOENT`,
a `SyntaxError` thrown by `JSON.parse` (`invalidJSON`), or some other error. -/
inductive JSONRead where
  | ok (doc : JSValue)
  | enoent
  | invalidJSON
  | otherErr (msg : String)

/-- `healthMetricsCounter` (`healthReader.js`, lines 56–90): the file system
is an explicit map from path to the outcome of reading and parsing.  Every
`catch` branch logs its message and returns `null` (modelled `none`). -/
def healthMetricsCounter (fs : String → JSONRead) (filePath : String) :
    Option JSValue × List String :=
  match fs filePath with
  | .ok doc => healthMetricsBody doc
  | .enoent => (none, ["File not found - check the file path"])
  | .invalidJSON => (none, ["❌ Invalid JSON - check the file format"])
  | .otherErr msg => (none, ["❌ Unknown error: " ++ msg])

/-! ## Per-row decomposition of the loop (for the proofs) -/

/-- What one row adds to `totalMinutes`: the parsed value when a parse
happens (negative values included, mirroring the missing `continue`),
0 when the row is skipped as missing or invalid. -/
def rowContrib (w : Row) : ℚ :=
  match durationValue w with
  | none => 0
  | some s =>
    if s = "" then 0
    else
      match parseFloat s with
      | none => 0
      | some v => v

/-- The diagnostics one row emits when processed at index `i` (at most one). -/
def rowDiagList (i : Nat) (w : Row) : List RowDiag :=
  match durationValue w with
  | none => [.missingDuration i]
  | some s =>
    if s = "" then [.missingDuration i]
    else
      match parseFloat s with
      | none => [.invalidDuration i s]
      | some v => if v < 0 then [.negativeDuration i v] else []

/-- All diagnostics of a row list whose first row has index `i`. -/
def diagsFrom (i : Nat) : List Row → List RowDiag
  | [] => []
  | w :: rest => rowDiagList i w ++ diagsFrom (i + 1) rest

/-- The row index a diagnostic cites. -/
def diagIndex : RowDiag → Nat
  | .missingDuration i => i
  | .invalidDuration i _ => i
  | .negativeDuration i _ => i

/-- The string `s` is, in its entirety, a decimal literal of value `v`
(the strict full-string reading of "fully-numeric": the tolerant prefix
parse consumes all of `s` and leaves nothing behind). -/
def numericString (s : String) (v : ℚ) : Prop :=
  parseSigned s.data = some (v, [])

end WorkoutApp

namespace WorkoutApp

theorem workoutLoop_eq (rows : List Row) (i : Nat) (t : ℚ) (d : List RowDiag) :
    workoutLoop rows i t d = (t + (rows.map rowContrib).sum, d ++ diagsFrom i rows) := by
  induction rows generalizing i t d with
  | nil => simp [workoutLoop, diagsFrom]
  | cons w rest ih =>
    simp only [workoutLoop, diagsFrom, List.map_cons, List.sum_cons]
    cases hw : durationValue w with
    | none =>
      simp [ih, rowContrib, rowDiagList, hw, add_assoc]
    | some s =>
      by_cases hs : s = ""
      · simp [hs, ih, rowContrib, rowDiagList, hw, add_assoc]
      · simp only [hs, if_neg, ite_false]
        cases hp : parseFloat s with
        | none => simp [ih, rowContrib, rowDiagList, hw, hs, hp, add_assoc]
        | some v =>
          by_cases hv : v < 0
          · simp [ih, rowContrib, rowDiagList, hw, hs, hp, hv, add_assoc]
          · simp [ih, rowContrib, rowDiagList, hw, hs, hp, hv, add_assoc]

theorem workoutCalculatorRows_eq (rows : List Row) :
    workoutCalculatorRows rows = (⟨rows.length, (rows.map rowContrib).sum⟩, diagsFrom 0 rows) := by
  simp [workoutCalculatorRows, workoutLoop_eq]

theorem diagIndex_rowDiagList (i : Nat) (w : Row) (d : RowDiag)
    (hd : d ∈ rowDiagList i w) : diagIndex d = i := by
  unfold rowDiagList at hd
  split at hd
  · simp at hd; subst hd; rfl
  · split at hd
    · simp at hd; subst hd; rfl
    · split at hd
      · simp at hd; subst hd; rfl
      · split at hd
        · simp at hd; subst hd; rfl
        · simp at hd

theorem mem_diagsFrom (k : Nat) (rows : List Row) (d : RowDiag)
    (hd : d ∈ diagsFrom k rows) :
    ∃ j, ∃ hj : j < rows.length, diagIndex d = k + j ∧ d ∈ rowDiagList (k + j) (rows.get ⟨j, hj⟩) := by
  induction rows generalizing k with
  | nil => simp [diagsFrom] at hd
  | cons w rest ih =>
    simp only [diagsFrom, List.mem_append] at hd
    rcases hd with hd | hd
    · exact ⟨0, by simp, by simpa using diagIndex_rowDiagList k w d hd, by simpa using hd⟩
    · obtain ⟨j, hj, hidx, hmem⟩ := ih (k + 1) hd
      refine ⟨j + 1, by simpa using hj, ?_, ?_⟩
      · rw [hidx]; omega
      · have hkj : k + (j + 1) = k + 1 + j := by omega
        rw [hkj]
        simpa using hmem

theorem rowDiagList_missing (i : Nat) (w : Row)
    (h : durationValue w = none ∨ durationValue w = some "") :
    rowDiagList i w = [.missingDuration i] := by
  rcases h with h | h <;> simp [rowDiagList, h]

theorem rowContrib_missing (w : Row)
    (h : durationValue w = none ∨ durationValue w = some "") :
    rowContrib w = 0 := by
  rcases h with h | h <;> simp [rowContrib, h]

theorem count_missing_diagsFrom (rows : List Row) (k i : Nat) (hi : i < rows.length)
    (hm : durationValue (rows.get ⟨i, hi⟩) = none ∨ durationValue (rows.get ⟨i, hi⟩) = some "") :
    (diagsFrom k rows).count (RowDiag.missingDuration (k + i)) = 1 := by
  induction rows generalizing k i with
  | nil => simp at hi
  | cons w rest ih =>
    cases i with
    | zero =>
      simp only [List.get] at hm
      simp only [Nat.add_zero]
      rw [diagsFrom, List.count_append, rowDiagList_missing k w hm]
      have hzero : (diagsFrom (k + 1) rest).count (RowDiag.missingDuration k) = 0 := by
        rw [List.count_eq_zero]
        intro hmem
        obtain ⟨j, hj, hidx, _⟩ := mem_diagsFrom (k + 1) rest _ hmem
        simp [diagIndex] at hidx
        omega
      simp [hzero]
    | succ j =>
      simp only [List.get] at hm
      rw [diagsFrom, List.count_append]
      have hleft : (rowDiagList k w).count (RowDiag.missingDuration (k + (j + 1))) = 0 := by
        rw [List.count_eq_zero]
        intro hmem
        have h2 := diagIndex_rowDiagList k w _ hmem
        simp [diagIndex] at h2
      have hright := ih (k + 1) j (by simpa using hi) hm
      have hkj : k + (j + 1) = k + 1 + j := by omega
      rw [hleft, hkj, hright]

theorem sum_map_eraseIdx (f : Row → ℚ) (rows : List Row) (i : Nat) (hi : i < rows.length) :
    (rows.map f).sum = f (rows.get ⟨i, hi⟩) + ((rows.eraseIdx i).map f).sum := by
  induction rows generalizing i with
  | nil => simp at hi
  | cons w rest ih =>
    cases i with
    | zero => simp [List.eraseIdx]
    | succ j =>
      simp only [List.eraseIdx, List.map_cons, List.sum_cons, List.get]
      rw [ih j (by simpa using hi)]
      ring

end WorkoutApp

namespace WorkoutApp

theorem parseSigned_nil : parseSigned [] = none := rfl

theorem parseSigned_whitespace_head (c : Char) (cs : List Char) (hc : c.isWhitespace = true) :
    parseSigned (c :: cs) = none := by
  have hca : ((c = ' ' ∨ c = '\t') ∨ c = '\x0d') ∨ c = '\n' := by
    simpa [Char.isWhitespace] using hc
  rcases hca with ((h | h) | h) | h <;> subst h <;>
    simp [parseSigned, parseUnsigned, takeDigits]

theorem numericString_ne_empty (s : String) (v : ℚ) (h : numericString s v) : s ≠ "" := by
  intro he
  subst he
  have h2 : (none : Option (ℚ × List Char)) = some (v, []) := h
  exact Option.noConfusion h2

theorem numericString_parseFloat (s : String) (v : ℚ) (h : numericString s v) :
    parseFloat s = some v := by
  unfold numericString at h
  unfold parseFloat
  cases hd : s.data with
  | nil => rw [hd] at h; simp [parseSigned_nil] at h
  | cons c cs =>
    rw [hd] at h
    have hcw : c.isWhitespace = false := by
      by_contra hw
      rw [Bool.not_eq_false] at hw
      rw [parseSigned_whitespace_head c cs hw] at h
      exact Option.noConfusion h
    rw [List.dropWhile_cons]
    simp [hcw, h]

theorem rowContrib_numeric (w : Row) (s : String) (v : ℚ)
    (hdur : durationValue w = some s) (hnum : numericString s v) :
    rowContrib w = v := by
  have hne := numericString_ne_empty s v hnum
  have hpf := numericString_parseFloat s v hnum
  simp [rowContrib, hdur, hne, hpf]

theorem diagsFrom_all_missing (rows : List Row) (k : Nat)
    (h : ∀ w ∈ rows, durationValue w = none) :
    diagsFrom k rows = (List.range rows.length).map (fun j => RowDiag.missingDuration (k + j)) := by
  induction rows generalizing k with
  | nil => simp [diagsFrom]
  | cons w rest ih =>
    rw [diagsFrom, rowDiagList_missing k w (Or.inl (h w (by simp)))]
    rw [ih (k + 1) (fun u hu => h u (by simp [hu]))]
    have hfun : (List.range rest.length).map (fun j => RowDiag.missingDuration (k + 1 + j))
        = (List.range rest.length).map ((fun j => RowDiag.missingDuration (k + j)) ∘ Nat.succ) := by
      apply List.map_congr_left
      intro j hj
      simp only [Function.comp_apply]
      congr 1
      omega
    rw [List.length_cons, List.range_succ_eq_map, List.map_cons, List.map_map, ← hfun]
    simp

end WorkoutApp

namespace WorkoutApp

/-- C1 counterexample: an empty decoded sequence (no declared columns), and a
one-row sequence without a `duration` column, both make `workoutCalculator`
return a result object — not the absence sentinel — and no `SchemaError`
diagnostic exists anywhere in its diagnostic type: the claimed schema-level
check is absent from the code. -/
theorem schema_missing_counterexample :
    (workoutCalculator (fun _ => CSVRead.ok []) "data/workouts.csv"
        = (some ⟨0, 0⟩, [])) ∧
    (workoutCalculator (fun _ => CSVRead.ok [[("date", "2024-01-01")]]) "data/workouts.csv"
        = (some ⟨1, 0⟩, [WorkoutDiag.row (RowDiag.missingDuration 0)])) := by
  constructor <;> rfl

/-- C1 (amended): `workoutCalculator` performs no schema-level check.  For a
decoded input none of whose rows has a `duration` field (the column is not
declared), it still returns a result, with `totalWorkouts` the row count and
`totalMinutes` 0, emitting one per-row "missing duration" diagnostic for each
row (so none at all for the empty sequence). -/
theorem workout_no_duration_column (fs : String → CSVRead) (p : String) (rows : List Row)
    (hread : fs p = CSVRead.ok rows) (hcol : ∀ w ∈ rows, durationValue w = none) :
    workoutCalculator fs p =
      (some ⟨rows.length, 0⟩,
        (List.range rows.length).map (fun i => WorkoutDiag.row (RowDiag.missingDuration i))) := by
  have hsum : (rows.map rowContrib).sum = 0 := by
    apply List.sum_eq_zero
    intro x hx
    obtain ⟨w, hw, hxw⟩ := List.mem_map.mp hx
    rw [← hxw]
    exact rowContrib_missing w (Or.inl (hcol w hw))
  have hdiags := diagsFrom_all_missing rows 0 hcol
  simp only [Nat.zero_add] at hdiags
  simp [workoutCalculator, hread, workoutCalculatorRows_eq, hsum, hdiags, List.map_map,
    Function.comp]

/-- C1 witness for the amended theorem, at a concrete one-row input without a
`duration` column. -/
theorem workout_no_duration_column_witness :
    workoutCalculator (fun _ => CSVRead.ok [[("date", "2024-01-01")]]) "data/workouts.csv"
      = (some ⟨1, 0⟩, [WorkoutDiag.row (RowDiag.missingDuration 0)]) := by
  have h := workout_no_duration_column (fun _ => CSVRead.ok [[("date", "2024-01-01")]])
    "data/workouts.csv" [[("date", "2024-01-01")]] rfl (by
      intro w hw
      simp at hw
      subst hw
      rfl)
  simpa [List.range_succ] using h

/-- C2: the code contradicts both the claim and its own comment ("do not add
it to the total"): for the one-row input with duration `-15` the negative
value IS added to `totalMinutes` (the `parsed < 0` branch logs but does not
skip the `totalMinutes += parsed` that follows), so the total is `-15`, not
the claimed 0; the "negative duration" diagnostic with row index and parsed
value is emitted as claimed. -/
theorem negative_duration_added :
    workoutCalculatorRows [[("duration", "-15")]]
      = (⟨1, -15⟩, [RowDiag.negativeDuration 0 (-15)]) := by
  simp [workoutCalculatorRows, workoutLoop, parseFloat, parseSigned, parseUnsigned,
    parseExp, takeDigits, digitsToNat, digitVal, durationValue]

/-- C3: on the four rows with durations "abc", "30min", "1,200", "-15" the
calculator returns `totalWorkouts = 4` and `totalMinutes = 16`, and the parse
follows leading-numeric-prefix semantics: "30min" parses to 30, "1,200" to 1
(the comma stops the numeric token), and "abc" to no value at all (it
contributes 0 via the invalid-duration branch). -/
theorem mixed_durations_example :
    workoutCalculatorRows
        [[("duration", "abc")], [("duration", "30min")], [("duration", "1,200")],
          [("duration", "-15")]]
      = (⟨4, 16⟩, [RowDiag.invalidDuration 0 "abc", RowDiag.negativeDuration 3 (-15)]) ∧
    parseFloat "30min" = some 30 ∧ parseFloat "1,200" = some 1 ∧ parseFloat "abc" = none := by
  refine ⟨?_, ?_, ?_, ?_⟩
  · simp [workoutCalculatorRows, workoutLoop, parseFloat, parseSigned, parseUnsigned,
      parseExp, takeDigits, digitsToNat, digitVal, durationValue]
    norm_num
  · simp [parseFloat, parseSigned, parseUnsigned, parseExp, takeDigits, digitsToNat, digitVal]
  · simp [parseFloat, parseSigned, parseUnsigned, parseExp, takeDigits, digitsToNat, digitVal]
  · simp [parseFloat, parseSigned, parseUnsigned, parseExp, takeDigits, digitsToNat, digitVal]

/-- C4: when every row has a `duration` that is entirely a decimal literal of
non-negative value, `totalMinutes` is the exact sum of those values and
`totalWorkouts` the row count. -/
theorem workout_exact_sum (rows : List Row) (vals : List ℚ)
    (h : List.Forall₂
      (fun w v => ∃ s, durationValue w = some s ∧ numericString s v ∧ 0 ≤ v) rows vals) :
    (workoutCalculatorRows rows).1 = ⟨rows.length, vals.sum⟩ := by
  rw [workoutCalculatorRows_eq]
  have hsum : (rows.map rowContrib).sum = vals.sum := by
    induction h with
    | nil => simp
    | cons hw hrest ih =>
      obtain ⟨s, hdur, hnum, _⟩ := hw
      simp [rowContrib_numeric _ s _ hdur hnum, ih]
  simp [hsum]

/-- C4 witness: rows with durations "30" and "45" give 2 workouts and 75
minutes. -/
theorem workout_exact_sum_witness :
    (workoutCalculatorRows [[("duration", "30")], [("duration", "45")]]).1 = ⟨2, 75⟩ := by
  have h30 : numericString "30" 30 := by
    simp [numericString, parseSigned, parseUnsigned, parseExp, takeDigits, digitsToNat, digitVal]
  have h45 : numericString "45" 45 := by
    simp [numericString, parseSigned, parseUnsigned, parseExp, takeDigits, digitsToNat, digitVal]
  have h := workout_exact_sum [[("duration", "30")], [("duration", "45")]] [30, 45]
    (List.Forall₂.cons ⟨"30", rfl, h30, by norm_num⟩
      (List.Forall₂.cons ⟨"45", rfl, h45, by norm_num⟩ List.Forall₂.nil))
  exact h.trans (by norm_num)

/-- C5: `totalWorkouts` always equals the number of rows processed, whatever
the classification of each row; and a row whose `duration` is absent or the
empty string contributes 0 to `totalMinutes` (removing it leaves the total
unchanged) and produces exactly one "missing duration" diagnostic citing its
0-based row index. -/
theorem workout_missing_row_policy :
    (∀ rows : List Row, (workoutCalculatorRows rows).1.totalWorkouts = rows.length) ∧
    (∀ (rows : List Row) (i : Nat) (hi : i < rows.length),
      (durationValue (rows.get ⟨i, hi⟩) = none ∨ durationValue (rows.get ⟨i, hi⟩) = some "") →
        (workoutCalculatorRows rows).1.totalMinutes
            = (workoutCalculatorRows (rows.eraseIdx i)).1.totalMinutes ∧
          (workoutCalculatorRows rows).2.count (RowDiag.missingDuration i) = 1) := by
  constructor
  · intro rows
    rw [workoutCalculatorRows_eq]
  · intro rows i hi hm
    constructor
    · rw [workoutCalculatorRows_eq, workoutCalculatorRows_eq]
      simp only
      rw [sum_map_eraseIdx rowContrib rows i hi, rowContrib_missing _ hm, zero_add]
    · rw [workoutCalculatorRows_eq]
      simpa using count_missing_diagsFrom rows 0 i hi hm

/-- C5 witness: rows "30", "", "15" — three workouts, the empty row at index
1 contributes nothing and yields exactly one missing-duration diagnostic. -/
theorem workout_missing_row_policy_witness :
    (workoutCalculatorRows [[("duration", "30")], [("duration", "")], [("duration", "15")]]
      ).1.totalWorkouts = 3 ∧
    ((workoutCalculatorRows [[("duration", "30")], [("duration", "")], [("duration", "15")]]
        ).1.totalMinutes
      = (workoutCalculatorRows
          (([[("duration", "30")], [("duration", "")], [("duration", "15")]] : List Row).eraseIdx 1)
        ).1.totalMinutes ∧
      (workoutCalculatorRows [[("duration", "30")], [("duration", "")], [("duration", "15")]]
        ).2.count (RowDiag.missingDuration 1) = 1) :=
  ⟨workout_missing_row_policy.1 _,
   workout_missing_row_policy.2 _ 1 (by decide) (Or.inr rfl)⟩

/-- C8 counterexample: a row whose `duration` is the string "0" is NOT
classified MISSING — the non-empty string "0" is truthy in JS — so the
calculator emits no diagnostic at all for it, contradicting the claimed
"missing duration" diagnostic. -/
theorem zero_duration_counterexample :
    workoutCalculatorRows [[("duration", "0")]] = (⟨1, 0⟩, []) ∧
    RowDiag.missingDuration 0 ∉ (workoutCalculatorRows [[("duration", "0")]]).2 := by
  have h : workoutCalculatorRows [[("duration", "0")]] = (⟨1, 0⟩, []) := by
    simp [workoutCalculatorRows, workoutLoop, parseFloat, parseSigned, parseUnsigned,
      parseExp, takeDigits, digitsToNat, digitVal, durationValue]
  exact ⟨h, by simp [h]⟩

/-- C8 (amended): a row whose `duration` is "0" is parsed as the number zero:
it contributes 0 to `totalMinutes` (removing it leaves the total unchanged)
and no diagnostic of any kind cites its row index; the numeric totals agree
with the claim, only the diagnostic channel differs. -/
theorem zero_duration_parses (rows : List Row) (i : Nat) (hi : i < rows.length)
    (h : durationValue (rows.get ⟨i, hi⟩) = some "0") :
    (workoutCalculatorRows rows).1.totalMinutes
        = (workoutCalculatorRows (rows.eraseIdx i)).1.totalMinutes ∧
      ∀ d ∈ (workoutCalculatorRows rows).2, diagIndex d ≠ i := by
  have hpf : parseFloat "0" = some 0 := by
    simp [parseFloat, parseSigned, parseUnsigned, parseExp, takeDigits, digitsToNat, digitVal]
  have h2 : durationValue rows[i] = some "0" := h
  have hcontrib : rowContrib (rows.get ⟨i, hi⟩) = 0 := by
    simp [rowContrib, h2, hpf]
  constructor
  · rw [workoutCalculatorRows_eq, workoutCalculatorRows_eq]
    simp only
    rw [sum_map_eraseIdx rowContrib rows i hi, hcontrib, zero_add]
  · rw [workoutCalculatorRows_eq]
    intro d hd hdi
    obtain ⟨j, hj, hidx, hmem⟩ := mem_diagsFrom 0 rows d hd
    have hji : j = i := by omega
    subst hji
    have hget : rows.get ⟨j, hj⟩ = rows.get ⟨j, hi⟩ := rfl
    rw [hget] at hmem
    simp only [Nat.zero_add] at hmem
    rw [show rowDiagList j (rows.get ⟨j, hi⟩) = [] from by simp [rowDiagList, h2, hpf]] at hmem
    simp at hmem

/-- C8 witness for the amended theorem, at the concrete one-row input with
duration "0". -/
theorem zero_duration_parses_witness :
    ((workoutCalculatorRows [[("duration", "0")]]).1.totalMinutes
        = (workoutCalculatorRows (([[("duration", "0")]] : List Row).eraseIdx 0)).1.totalMinutes) ∧
      ∀ d ∈ (workoutCalculatorRows [[("duration", "0")]]).2, diagIndex d ≠ 0 :=
  zero_duration_parses [[("duration", "0")]] 0 (by decide) rfl

end WorkoutApp

namespace WorkoutApp

/-- C6: absence is benign, malformed presence is not.  If the document's
`metrics` value is absent (`undefined`) or `null`, `healthMetricsCounter`
returns the count 0 with the "no metrics found" diagnostic; if `metrics` is
present as a bare key-value object with no `length` member, it returns no
result (`null`) with the "not a collection" diagnostic. -/
theorem metrics_absent_vs_malformed (doc : JSValue) :
    ((getField doc "metrics" = JSValue.undefined ∨ getField doc "metrics" = JSValue.null) →
      healthMetricsBody doc = (some (JSValue.num 0), ["No metrics found in the file"])) ∧
    (∀ fields : List (String × JSValue), getField doc "metrics" = JSValue.obj fields →
      fields.lookup "length" = none →
      healthMetricsBody doc =
        (none, ["Metrics is not an array or does not have a length property"])) := by
  constructor
  · intro h
    rcases h with h | h <;> simp [healthMetricsBody, h, jsTruthy]
  · intro fields hm hlen
    cases doc with
    | obj docFields =>
      unfold healthMetricsBody
      rw [hm]
      simp [jsTruthy, isArray, typeofIsUndefined, getField, hlen]
    | null => simp [getField] at hm
    | undefined => simp [getField] at hm
    | bool b => simp [getField] at hm
    | num x => simp [getField] at hm
    | str t => simp [getField] at hm
    | arr l => simp [getField] at hm

/-- C6 witness: a document without a `metrics` key counts 0 benignly; a
document whose `metrics` is the bare object `{}` fails with no result. -/
theorem metrics_absent_vs_malformed_witness :
    healthMetricsBody (JSValue.obj [("user", JSValue.str "Alex")])
        = (some (JSValue.num 0), ["No metrics found in the file"]) ∧
    healthMetricsBody (JSValue.obj [("metrics", JSValue.obj [])])
        = (none, ["Metrics is not an array or does not have a length property"]) :=
  ⟨(metrics_absent_vs_malformed _).1 (Or.inl rfl),
   (metrics_absent_vs_malformed _).2 [] rfl rfl⟩

/-- C7: when the source path does not exist (the read yields `ENOENT`), both
pipelines return the absence sentinel `none` — not a zero-valued result —
and emit their "file not found" diagnostic. -/
theorem file_not_found_both (fsW : String → CSVRead) (fsH : String → JSONRead)
    (pw ph : String) (hw : fsW pw = CSVRead.enoent) (hh : fsH ph = JSONRead.enoent) :
    workoutCalculator fsW pw = (none, [WorkoutDiag.fileNotFound]) ∧
    healthMetricsCounter fsH ph = (none, ["File not found - check the file path"]) := by
  constructor
  · simp [workoutCalculator, hw]
  · simp [healthMetricsCounter, hh]

/-- C7 witness at concrete missing paths. -/
theorem file_not_found_both_witness :
    workoutCalculator (fun _ => CSVRead.enoent) "missing.csv"
        = (none, [WorkoutDiag.fileNotFound]) ∧
    healthMetricsCounter (fun _ => JSONRead.enoent) "missing.json"
        = (none, ["File not found - check the file path"]) :=
  file_not_found_both _ _ _ _ rfl rfl

/-- C9: every falsy `metrics` value — absent, `null`, `false`, the number 0,
or the empty string — takes the benign branch: count 0 with the "no metrics
found" diagnostic, never a failure; and conversely the "not a collection"
failure is only reachable when `metrics` is truthy, not an array, and has no
`length` member. -/
theorem metrics_falsy_benign (doc : JSValue) :
    ((getField doc "metrics" = JSValue.undefined ∨ getField doc "metrics" = JSValue.null ∨
      getField doc "metrics" = JSValue.bool false ∨ getField doc "metrics" = JSValue.num 0 ∨
      getField doc "metrics" = JSValue.str "") →
      healthMetricsBody doc = (some (JSValue.num 0), ["No metrics found in the file"])) ∧
    (healthMetricsBody doc = (none, ["Metrics is not an array or does not have a length property"]) →
      jsTruthy (getField doc "metrics") = true ∧
      isArray (getField doc "metrics") = false ∧
      typeofIsUndefined (getField (getField doc "metrics") "length") = true) := by
  constructor
  · intro h
    rcases h with h | h | h | h | h <;> simp [healthMetricsBody, h, jsTruthy]
  · intro h
    unfold healthMetricsBody at h
    split at h
    · simp at h
    · rename_i hcond1
      push_neg at hcond1
      split at h
      · rename_i hcond2
        exact ⟨by simpa using hcond1.2, hcond2.1, hcond2.2⟩
      · simp at h

/-- C9 witness: `metrics: false` is benign; the failure output implies a
truthy, non-array, lengthless `metrics` (shown at `metrics: {}`). -/
theorem metrics_falsy_benign_witness :
    healthMetricsBody (JSValue.obj [("metrics", JSValue.bool false)])
        = (some (JSValue.num 0), ["No metrics found in the file"]) ∧
    (jsTruthy (getField (JSValue.obj [("metrics", JSValue.obj [])]) "metrics") = true ∧
      isArray (getField (JSValue.obj [("metrics", JSValue.obj [])]) "metrics") = false ∧
      typeofIsUndefined
        (getField (getField (JSValue.obj [("metrics", JSValue.obj [])]) "metrics") "length")
        = true) :=
  ⟨(metrics_falsy_benign _).1 (Or.inr (Or.inr (Or.inl rfl))),
   (metrics_falsy_benign _).2 rfl⟩

/-- C10: a non-empty string `metrics` value is truthy and has a `length`, so
the counter succeeds and returns the string's character length with no
diagnostic, rather than the not-a-collection failure. -/
theorem metrics_string_length (doc : JSValue) (s : String)
    (hm : getField doc "metrics" = JSValue.str s) (hne : s ≠ "") :
    healthMetricsBody doc = (some (JSValue.num (s.length : ℚ)), []) := by
  cases doc with
  | obj docFields =>
    unfold healthMetricsBody
    rw [hm]
    simp [jsTruthy, hne, isArray, typeofIsUndefined, getField]
  | null => simp [getField] at hm
  | undefined => simp [getField] at hm
  | bool b => simp [getField] at hm
  | num x => simp [getField] at hm
  | str t => simp [getField] at hm
  | arr l => simp [getField] at hm

/-- C10 witness: `metrics: "abc"` yields the successful count 3. -/
theorem metrics_string_length_witness :
    healthMetricsBody (JSValue.obj [("metrics", JSValue.str "abc")])
        = (some (JSValue.num (("abc".length : Nat) : ℚ)), []) :=
  metrics_string_length _ "abc" rfl (by decide)

end WorkoutApp
